import Mathlib

/-!
# A verification development for the Dynamics/Optimizer core of `ase/optimize/optimize.py`

This file gives a shallow embedding, in Lean 4, of the iterative run loop of the
`Dynamics` and `Optimizer` classes (file `ase/optimize/optimize.py`) and proves
properties of that loop.

Modelling conventions:
* Physical quantities (forces, energies, convergence thresholds) are rationals;
  the Python floats are exact in the source expressions we model, so `ℚ` is the
  faithful shallow embedding of the arithmetic performed.
* The `Atoms` object is opaque to the core except for the accessors the core
  calls: `get_forces`, `get_potential_energy(force_consistent=...)`, and the
  optional `get_curvature`.  We model exactly that slice: the current value
  returned by `get_forces` (a list of per-atom rows of components), whether a
  `get_curvature` attribute exists together with its value, and the two energy
  variants.  A missing force-consistent energy stands for the calculator
  raising `PropertyNotImplementedError`.
* Python exceptions are modelled with `Except`.
* The generator `Dynamics.irun` is modelled as a function producing the list of
  booleans it yields, the list of side-effect events it performs (initial force
  evaluation, `log`, `call_observers`, `step`), and the final state (or the
  propagated error).  Fuel bounds the `while` loop; the loop counter `nsteps`
  strictly increases towards `max_steps`, so fuel `max_steps - nsteps` always
  suffices.
-/

namespace ASE

/-- Sum of the squared components of one per-atom force row; one entry of the
numpy expression `(forces ** 2).sum(axis=1)` from `Optimizer.converged`. -/
def sumSq (row : List ℚ) : ℚ := (row.map (fun x => x * x)).sum

/-- The numpy expression `(forces ** 2).sum(axis=1).max()`: maximum over atoms
of the squared force magnitude, modelled as a fold.  For a nonempty force list
(all summands are squares, hence nonnegative) the fold equals the maximum. -/
def maxForceSq (forces : List (List ℚ)) : ℚ := (forces.map sumSq).foldl max 0

/-- The error raised by `Calculator.get_potential_energy` when the requested
energy variant is unsupported (`PropertyNotImplementedError`). -/
inductive PropErr where
  | propertyNotImplementedError
  deriving DecidableEq, Repr

/-- The slice of the `Atoms` object that the optimizer core reads.
`get_forces` is the value the provider currently returns; `get_curvature` is
`some c` exactly when the object exposes a `get_curvature` attribute returning
`c`; `epFC` is the force-consistent potential energy (`none` when the
calculator raises `PropertyNotImplementedError` for it); `ep0K` is the
extrapolated (non-force-consistent) potential energy. -/
structure Atoms where
  get_forces : List (List ℚ)
  get_curvature : Option ℚ
  epFC : Option ℚ
  ep0K : ℚ
  deriving DecidableEq, Repr

/-- Embeds `atoms.get_potential_energy(force_consistent=fc)`: the force-consistent
variant fails with `PropertyNotImplementedError` when the calculator does not
provide it. -/
def Atoms.get_potential_energy (a : Atoms) (force_consistent : Bool) : Except PropErr ℚ :=
  if force_consistent then
    match a.epFC with
    | some e => Except.ok e
    | none => Except.error PropErr.propertyNotImplementedError
  else
    Except.ok a.ep0K

/-- Errors the run loop can propagate: a missing `step` implementation
(`RuntimeError("step not implemented.")`) or a `RestartError` with its
message. -/
inductive DynErr where
  | stepNotImplemented
  | restartError (msg : String)
  deriving DecidableEq, Repr

/-- Side effects of the run loop, in the order they are performed:
the initial `self.atoms.get_forces()` call, a `self.log()` call and a
`self.call_observers()` call made with step counter `n`, and a `self.step()`
call made while the counter still holds `n` (it is incremented right after). -/
inductive Event where
  | evalForces
  | logged (n : ℕ)
  | notified (n : ℕ)
  | stepped (n : ℕ)
  deriving DecidableEq, Repr

/-- The two methods of `Dynamics` that subclasses override: the convergence
predicate (`Dynamics.converged` defaults to `False`; `Optimizer` overrides it)
and the step algorithm.  `stepFn = none` models a subclass that does not supply
`step`, in which case the base `Dynamics.step` raises
`RuntimeError("step not implemented.")`. -/
structure Dyn (σ : Type) where
  conv : σ → Bool
  stepFn : Option (σ → σ)

/-- The mutable run state threaded through `Dynamics`: the system handle, the
step counter `self.nsteps`, and the budget `self.max_steps`. -/
structure DynS (σ : Type) where
  sys : σ
  nsteps : ℕ
  max_steps : ℕ
  deriving DecidableEq, Repr

/-- Embeds `self.step()`: it delegates to the subclass step algorithm, or raises when no
subclass supplied one. -/
def Dyn.stepE {σ : Type} (d : Dyn σ) (s : σ) : Except DynErr σ :=
  match d.stepFn with
  | none => Except.error DynErr.stepNotImplemented
  | some f => Except.ok (f s)

/-- Fresh run state as set by `Dynamics.__init__`: `self.nsteps = 0` and
`self.max_steps = 100000000`.  The constructor never inspects the step
algorithm, so construction succeeds also when `step` is missing. -/
def freshRun {σ : Type} (sys : σ) : DynS σ := ⟨sys, 0, 100000000⟩

/-- The `while not self.converged() and self.nsteps < self.max_steps` loop of
`Dynamics.irun`, with fuel.  Each iteration calls `step()`, increments
`nsteps`, yields `False`, then logs and notifies; when the guard fails the
final `yield self.converged()` is emitted.  Components of the result: yielded
booleans, events, and the final state or propagated error. -/
def irunLoop {σ : Type} (d : Dyn σ) : ℕ → DynS σ → List Bool × List Event × Except DynErr (DynS σ)
  | 0, s =>
    if d.conv s.sys = false ∧ s.nsteps < s.max_steps then
      ([], [], Except.ok s)
    else
      ([d.conv s.sys], [], Except.ok s)
  | fuel + 1, s =>
    if d.conv s.sys = false ∧ s.nsteps < s.max_steps then
      match d.stepE s.sys with
      | Except.error e => ([], [], Except.error e)
      | Except.ok sys' =>
        (false :: (irunLoop d fuel ⟨sys', s.nsteps + 1, s.max_steps⟩).1,
         Event.stepped s.nsteps :: Event.logged (s.nsteps + 1) :: Event.notified (s.nsteps + 1) ::
           (irunLoop d fuel ⟨sys', s.nsteps + 1, s.max_steps⟩).2.1,
         (irunLoop d fuel ⟨sys', s.nsteps + 1, s.max_steps⟩).2.2)
    else
      ([d.conv s.sys], [], Except.ok s)

/-- Embeds `Dynamics.irun`: it evaluates the initial forces, yields `False`, logs and
notifies if `self.nsteps == 0`, runs the while loop, and finally yields
`self.converged()` (the final yield is part of `irunLoop`). -/
def Dyn.irun {σ : Type} (d : Dyn σ) (s : DynS σ) : List Bool × List Event × Except DynErr (DynS σ) :=
  (false :: (irunLoop d (s.max_steps - s.nsteps) s).1,
   Event.evalForces ::
     ((if s.nsteps = 0 then [Event.logged s.nsteps, Event.notified s.nsteps] else []) ++
       (irunLoop d (s.max_steps - s.nsteps) s).2.1),
   (irunLoop d (s.max_steps - s.nsteps) s).2.2)

/-- Embeds `Dynamics.run`: `for converged in Dynamics.irun(self): pass; return
converged` — drains `irun` and returns the last yielded boolean, paired with
the final run state; an exception raised inside the generator propagates. -/
def Dyn.run {σ : Type} (d : Dyn σ) (s : DynS σ) : Except DynErr (Bool × DynS σ) :=
  match (d.irun s).2.2 with
  | Except.error e => Except.error e
  | Except.ok s' => Except.ok (((d.irun s).1).getLastD false, s')

/-- The loop of the reference description `loop { step(); nsteps+=1;
log+notify } until converged() or nsteps>=max_steps`, written from the
specification text, to be compared with `irunLoop`. -/
def runRefLoop {σ : Type} (d : Dyn σ) : ℕ → DynS σ → List Event × Except DynErr (DynS σ)
  | 0, s =>
    if d.conv s.sys = false ∧ s.nsteps < s.max_steps then
      ([], Except.ok s)
    else
      ([], Except.ok s)
  | fuel + 1, s =>
    if d.conv s.sys = false ∧ s.nsteps < s.max_steps then
      match d.stepE s.sys with
      | Except.error e => ([], Except.error e)
      | Except.ok sys' =>
        (Event.stepped s.nsteps :: Event.logged (s.nsteps + 1) :: Event.notified (s.nsteps + 1) ::
           (runRefLoop d fuel ⟨sys', s.nsteps + 1, s.max_steps⟩).1,
         (runRefLoop d fuel ⟨sys', s.nsteps + 1, s.max_steps⟩).2)
    else
      ([], Except.ok s)

/-- Reference run, written from the specification text: `evaluate initial
forces, log+notify at step 0, then loop { step(); nsteps+=1; log+notify }
until converged() or nsteps>=max_steps`, returning the final convergence
boolean. -/
def Dyn.runRef {σ : Type} (d : Dyn σ) (s : DynS σ) : List Event × Except DynErr (Bool × DynS σ) :=
  (Event.evalForces :: Event.logged s.nsteps :: Event.notified s.nsteps ::
     (runRefLoop d (s.max_steps - s.nsteps) s).1,
   match (runRefLoop d (s.max_steps - s.nsteps) s).2 with
   | Except.error e => Except.error e
   | Except.ok s' => Except.ok (d.conv s'.sys, s'))

/-- When the loop guard fails, `irunLoop` just emits the final
`yield self.converged()`, for any amount of fuel. -/
lemma irunLoop_done {σ : Type} (d : Dyn σ) (fuel : ℕ) (s : DynS σ)
    (h : ¬(d.conv s.sys = false ∧ s.nsteps < s.max_steps)) :
    irunLoop d fuel s = ([d.conv s.sys], [], Except.ok s) := by
  cases fuel <;> simp [irunLoop, h]

/-- The code loop and the reference loop perform the same events and end in
the same state (or error). -/
lemma irunLoop_eq_runRefLoop {σ : Type} (d : Dyn σ) :
    ∀ (fuel : ℕ) (s : DynS σ),
      (irunLoop d fuel s).2.1 = (runRefLoop d fuel s).1 ∧
      (irunLoop d fuel s).2.2 = (runRefLoop d fuel s).2 := by
  intro fuel
  induction fuel with
  | zero =>
    intro s
    by_cases h : d.conv s.sys = false ∧ s.nsteps < s.max_steps <;>
      simp [irunLoop, runRefLoop, h]
  | succ n ih =>
    intro s
    by_cases h : d.conv s.sys = false ∧ s.nsteps < s.max_steps
    · cases hstep : d.stepE s.sys with
      | error e => simp [irunLoop, runRefLoop, h, hstep]
      | ok sys' =>
        have := ih ⟨sys', s.nsteps + 1, s.max_steps⟩
        simp [irunLoop, runRefLoop, h, hstep, this.1, this.2]
    · simp [irunLoop, runRefLoop, h]

/-- When the loop terminates normally, the last boolean it yields is the
convergence test of the state it terminates in. -/
lemma irunLoop_getLastD {σ : Type} (d : Dyn σ) :
    ∀ (fuel : ℕ) (s s' : DynS σ),
      (irunLoop d fuel s).2.2 = Except.ok s' →
      ((irunLoop d fuel s).1).getLastD false = d.conv s'.sys := by
  intro fuel
  induction fuel with
  | zero =>
    intro s s' h
    by_cases hg : d.conv s.sys = false ∧ s.nsteps < s.max_steps
    · simp [irunLoop, hg] at h ⊢
      rw [← h, hg.1]
    · simp [irunLoop, hg] at h ⊢
      rw [← h]
  | succ n ih =>
    intro s s' h
    by_cases hg : d.conv s.sys = false ∧ s.nsteps < s.max_steps
    · cases hstep : d.stepE s.sys with
      | error e => simp [irunLoop, hg, hstep] at h
      | ok sys' =>
        simp only [irunLoop, if_pos hg, hstep] at h ⊢
        rw [List.getLastD_cons]
        exact ih ⟨sys', s.nsteps + 1, s.max_steps⟩ s' h
    · simp [irunLoop, hg] at h ⊢
      rw [← h]

/-- C2: for every `Dynamics` instance (fresh instances start at `nsteps = 0`),
`run()` is equivalent to the reference loop « evaluate initial forces, log and
notify at step 0, then repeatedly { step(); nsteps += 1; log and notify } until
converged() or nsteps >= max_steps, returning the final convergence boolean »:
result (or propagated error) and event trace coincide; and `run()` is the
drain of `irun()` returning the last yielded boolean. -/
theorem dynamics_run_refines_reference {σ : Type} (d : Dyn σ) (s : DynS σ)
    (h : s.nsteps = 0) :
    d.run s = (d.runRef s).2 ∧
    (d.irun s).2.1 = (d.runRef s).1 ∧
    d.run s =
      (match (d.irun s).2.2 with
       | Except.error e => Except.error e
       | Except.ok s' => Except.ok (((d.irun s).1).getLastD false, s')) := by
  have hloop := irunLoop_eq_runRefLoop d (s.max_steps - s.nsteps) s
  refine ⟨?_, ?_, rfl⟩
  · show (match (d.irun s).2.2 with
      | Except.error e => Except.error e
      | Except.ok s' => Except.ok (((d.irun s).1).getLastD false, s')) = (d.runRef s).2
    cases hres : (irunLoop d (s.max_steps - s.nsteps) s).2.2 with
    | error e =>
      have h1 : (d.irun s).2.2 = Except.error e := hres
      have h2 : (runRefLoop d (s.max_steps - s.nsteps) s).2 = Except.error e := by
        rw [← hloop.2, hres]
      simp [Dyn.runRef, h1, h2]
    | ok s' =>
      have h1 : (d.irun s).2.2 = Except.ok s' := hres
      have h2 : (runRefLoop d (s.max_steps - s.nsteps) s).2 = Except.ok s' := by
        rw [← hloop.2, hres]
      have hlast := irunLoop_getLastD d (s.max_steps - s.nsteps) s s' hres
      simp only [Dyn.runRef, h1, h2]
      have : ((d.irun s).1).getLastD false = d.conv s'.sys := by
        show ((false :: (irunLoop d (s.max_steps - s.nsteps) s).1)).getLastD false
          = d.conv s'.sys
        rw [List.getLastD_cons]
        exact hlast
      rw [this]
  · show Event.evalForces ::
        ((if s.nsteps = 0 then [Event.logged s.nsteps, Event.notified s.nsteps] else []) ++
          (irunLoop d (s.max_steps - s.nsteps) s).2.1) = (d.runRef s).1
    rw [if_pos h, hloop.1]
    rfl

/-- Witness for C2 at a concrete instance: a one-system dynamics that is
converged from the start, driven from the fresh run state. -/
theorem dynamics_run_refines_reference_witness :
    ((⟨fun _ => true, some id⟩ : Dyn ℕ).run ⟨7, 0, 3⟩ =
        ((⟨fun _ => true, some id⟩ : Dyn ℕ).runRef ⟨7, 0, 3⟩).2 ∧
      ((⟨fun _ => true, some id⟩ : Dyn ℕ).irun ⟨7, 0, 3⟩).2.1 =
        ((⟨fun _ => true, some id⟩ : Dyn ℕ).runRef ⟨7, 0, 3⟩).1 ∧
      (⟨fun _ => true, some id⟩ : Dyn ℕ).run ⟨7, 0, 3⟩ =
        (match ((⟨fun _ => true, some id⟩ : Dyn ℕ).irun ⟨7, 0, 3⟩).2.2 with
         | Except.error e => Except.error e
         | Except.ok s' =>
             Except.ok ((((⟨fun _ => true, some id⟩ : Dyn ℕ).irun ⟨7, 0, 3⟩).1).getLastD false,
               s'))) :=
  dynamics_run_refines_reference (⟨fun _ => true, some id⟩ : Dyn ℕ) ⟨7, 0, 3⟩ rfl

/-! ## The Optimizer specialization -/

/-- Embeds `Optimizer.converged` with an explicit threshold: forces default to
`self.atoms.get_forces()`; when the atoms object exposes `get_curvature` the
squared-force test is conjoined with `get_curvature() < 0.0`. -/
def convergedForces (fmax : ℚ) (a : Atoms) (forces : Option (List (List ℚ))) : Bool :=
  match a.get_curvature with
  | some c =>
    decide (maxForceSq (forces.getD a.get_forces) < fmax ^ 2) && decide (c < 0)
  | none =>
    decide (maxForceSq (forces.getD a.get_forces) < fmax ^ 2)

/-- The run-state fields of an `Optimizer` that the modelled operations read
or write.  `name` is the class name used by `log`; `logfile` records whether a
log sink was opened; `observers` holds `(callable identity, interval)` pairs.
The source initializes the attribute `self.fmax = None`; the field is only
meaningful once `run`/`irun` assigns it (`Opt.setRun`). -/
structure Opt where
  name : String
  atoms : Atoms
  fmax : ℚ
  force_consistent : Bool
  nsteps : ℕ
  max_steps : ℕ
  restart : Option String
  logfile : Bool
  observers : List (ℕ × ℤ)
  deriving DecidableEq, Repr

/-- Embeds `Optimizer.converged(forces=None)`. -/
def Opt.converged (o : Opt) (forces : Option (List (List ℚ))) : Bool :=
  convergedForces o.fmax o.atoms forces

/-- The parameter handling shared by `Optimizer.irun` and `Optimizer.run`:
`self.fmax = fmax`, and `self.max_steps = steps` only when `steps` is not
`None`. -/
def Opt.setRun (o : Opt) (fmax : ℚ) (steps : Option ℕ) : Opt :=
  { o with
    fmax := fmax
    max_steps :=
      match steps with
      | none => o.max_steps
      | some k => k }

/-- The `Dynamics` view of an optimizer: `Optimizer.converged` (with forces
taken from the provider) as the convergence predicate, over the `Atoms`
system, with a subclass-supplied step algorithm. -/
def optDyn (fmax : ℚ) (alg : Option (Atoms → Atoms)) : Dyn Atoms :=
  ⟨fun a => convergedForces fmax a none, alg⟩

/-- Embeds `Optimizer.run(fmax, steps)`: store the parameters, then delegate to
`Dynamics.run`; the final run state is folded back into the optimizer. -/
def Opt.runO (o : Opt) (alg : Option (Atoms → Atoms)) (fmax : ℚ) (steps : Option ℕ) :
    Except DynErr (Bool × Opt) :=
  match (optDyn (o.setRun fmax steps).fmax alg).run
      ⟨(o.setRun fmax steps).atoms, (o.setRun fmax steps).nsteps,
        (o.setRun fmax steps).max_steps⟩ with
  | Except.error e => Except.error e
  | Except.ok p =>
    Except.ok (p.1, { o.setRun fmax steps with atoms := p.2.sys, nsteps := p.2.nsteps })

/-- Embeds `Optimizer.irun(fmax, steps)`: store the parameters, then delegate to
`Dynamics.irun`; the final run state is folded back into the optimizer. -/
def Opt.irunO (o : Opt) (alg : Option (Atoms → Atoms)) (fmax : ℚ) (steps : Option ℕ) :
    List Bool × List Event × Except DynErr Opt :=
  (((optDyn (o.setRun fmax steps).fmax alg).irun
      ⟨(o.setRun fmax steps).atoms, (o.setRun fmax steps).nsteps,
        (o.setRun fmax steps).max_steps⟩).1,
   ((optDyn (o.setRun fmax steps).fmax alg).irun
      ⟨(o.setRun fmax steps).atoms, (o.setRun fmax steps).nsteps,
        (o.setRun fmax steps).max_steps⟩).2.1,
   match ((optDyn (o.setRun fmax steps).fmax alg).irun
      ⟨(o.setRun fmax steps).atoms, (o.setRun fmax steps).nsteps,
        (o.setRun fmax steps).max_steps⟩).2.2 with
   | Except.error e => Except.error e
   | Except.ok s' =>
     Except.ok { o.setRun fmax steps with atoms := s'.sys, nsteps := s'.nsteps })

/-! ## Fold lemmas for the maximum squared force -/

/-- Folding `max` from `a` stays below `b` iff `a` and every list element do. -/
lemma foldl_max_lt_iff (b : ℚ) :
    ∀ (l : List ℚ) (a : ℚ), l.foldl max a < b ↔ a < b ∧ ∀ x ∈ l, x < b := by
  intro l
  induction l with
  | nil => intro a; simp
  | cons y t ih =>
    intro a
    rw [List.foldl_cons, ih]
    constructor
    · rintro ⟨h1, h2⟩
      rcases max_lt_iff.mp h1 with ⟨ha, hy⟩
      refine ⟨ha, ?_⟩
      intro x hx
      rcases List.mem_cons.mp hx with hxy | hxt
      · exact hxy ▸ hy
      · exact h2 x hxt
    · rintro ⟨h1, h2⟩
      refine ⟨max_lt_iff.mpr ⟨h1, h2 y (List.mem_cons_self y t)⟩, ?_⟩
      intro x hx
      exact h2 x (List.mem_cons_of_mem y hx)

/-- A sum of squares is nonnegative. -/
lemma sumSq_nonneg (row : List ℚ) : 0 ≤ sumSq row := by
  apply List.sum_nonneg
  intro x hx
  rcases List.mem_map.mp hx with ⟨y, _, rfl⟩
  exact mul_self_nonneg y

/-- For a nonempty force list, the folded maximum squared force is below `b`
iff every per-atom squared force is. -/
lemma maxForceSq_lt_iff {f : List (List ℚ)} (hne : f ≠ []) (b : ℚ) :
    maxForceSq f < b ↔ ∀ row ∈ f, sumSq row < b := by
  unfold maxForceSq
  rw [foldl_max_lt_iff]
  constructor
  · rintro ⟨_, h⟩
    intro row hrow
    exact h (sumSq row) (List.mem_map_of_mem sumSq hrow)
  · intro h
    rcases List.exists_mem_of_ne_nil f hne with ⟨r, hr⟩
    refine ⟨lt_of_le_of_lt (sumSq_nonneg r) (h r hr), ?_⟩
    intro x hx
    rcases List.mem_map.mp hx with ⟨row, hrow, rfl⟩
    exact h row hrow

/-- A row of zero components has zero squared magnitude. -/
lemma sumSq_eq_zero {row : List ℚ} (h : ∀ x ∈ row, x = 0) : sumSq row = 0 := by
  apply List.sum_eq_zero
  intro y hy
  rcases List.mem_map.mp hy with ⟨x, hx, rfl⟩
  rw [h x hx]
  ring

/-- Folding `max` from `0` over a list of zeros gives `0`. -/
lemma foldl_max_zero {l : List ℚ} (h : ∀ x ∈ l, x = 0) : l.foldl max 0 = 0 := by
  induction l with
  | nil => rfl
  | cons y t ih =>
    rw [List.foldl_cons, h y (List.mem_cons_self y t), max_self]
    exact ih fun x hx => h x (List.mem_cons_of_mem y hx)

/-- C1: `Optimizer.converged(forces)` is true iff every per-atom squared force
magnitude is strictly below `fmax ** 2` (equivalently the maximum is) and, when
the atoms object exposes a curvature accessor, the curvature is strictly
negative; when `forces` is not supplied the provider value
`atoms.get_forces()` is used. -/
theorem optimizer_converged_iff (o : Opt) (forces : Option (List (List ℚ)))
    (hne : forces.getD o.atoms.get_forces ≠ []) :
    (o.converged forces = true ↔
      ((∀ row ∈ forces.getD o.atoms.get_forces, sumSq row < o.fmax ^ 2) ∧
        ∀ c, o.atoms.get_curvature = some c → c < 0)) ∧
    o.converged none = o.converged (some o.atoms.get_forces) := by
  refine ⟨?_, rfl⟩
  unfold Opt.converged convergedForces
  cases hc : o.atoms.get_curvature with
  | none =>
    rw [decide_eq_true_iff, maxForceSq_lt_iff hne]
    constructor
    · intro h
      exact ⟨h, by intro c hcc; cases hcc⟩
    · intro h
      exact h.1
  | some c =>
    rw [Bool.and_eq_true, decide_eq_true_iff, decide_eq_true_iff,
      maxForceSq_lt_iff hne]
    constructor
    · rintro ⟨h1, h2⟩
      refine ⟨h1, ?_⟩
      intro c' hcc
      cases hcc
      exact h2
    · rintro ⟨h1, h2⟩
      exact ⟨h1, h2 c rfl⟩

/-- A concrete optimizer used by the C1 witness: one atom, force row
`[1/10, 0, 0]`, threshold `1/20` and a negative curvature accessor. -/
def oC1 : Opt :=
  { name := "MinModeOpt", atoms := ⟨[[1/10, 0, 0]], some (-1), none, 2⟩,
    fmax := 1/20, force_consistent := false, nsteps := 0,
    max_steps := 100000000, restart := none, logfile := true,
    observers := [] }

/-- Witness for C1 at `oC1`: the squared test fails (`1/100 < 1/400` is
false), so `converged` is `false` and both sides of the equivalence are
falsified together. -/
theorem optimizer_converged_iff_witness :
    (oC1.converged none = true ↔
      ((∀ row ∈ (none : Option (List (List ℚ))).getD oC1.atoms.get_forces,
          sumSq row < oC1.fmax ^ 2) ∧
        ∀ c, oC1.atoms.get_curvature = some c → c < 0)) ∧
    oC1.converged none = oC1.converged (some oC1.atoms.get_forces) :=
  optimizer_converged_iff oC1 none (by decide)

/-- C3: for a positive threshold and a provider whose forces are identically
zero, `Optimizer.run(fmax)` returns `true` right after the initial force
evaluation: no `step` event occurs, the step counter is unchanged (still the
step-0 count), and `irun` yields exactly `[false, true]`, so the first (and
only) `true` is the final yield following the initial evaluation. -/
theorem optimizer_run_fixed_point (o : Opt) (alg : Option (Atoms → Atoms)) (fmax : ℚ)
    (hf : 0 < fmax) (hne : o.atoms.get_forces ≠ [])
    (hz : ∀ row ∈ o.atoms.get_forces, ∀ x ∈ row, x = 0)
    (hc : o.atoms.get_curvature = none) (h0 : o.nsteps = 0) :
    o.runO alg fmax none = Except.ok (true, o.setRun fmax none) ∧
    o.irunO alg fmax none =
      ([false, true], [Event.evalForces, Event.logged 0, Event.notified 0],
        Except.ok (o.setRun fmax none)) := by
  have hg : convergedForces fmax o.atoms none = true := by
    unfold convergedForces
    rw [hc, decide_eq_true_iff, Option.getD_none]
    have hm : maxForceSq o.atoms.get_forces = 0 := by
      unfold maxForceSq
      apply foldl_max_zero
      intro x hx
      rcases List.mem_map.mp hx with ⟨row, hrow, rfl⟩
      exact sumSq_eq_zero (hz row hrow)
    rw [hm]
    exact pow_pos hf 2
  have hdone : irunLoop (optDyn fmax alg) (o.max_steps - o.nsteps)
      ⟨o.atoms, o.nsteps, o.max_steps⟩ =
      ([true], [], Except.ok ⟨o.atoms, o.nsteps, o.max_steps⟩) := by
    have hguard : ¬((optDyn fmax alg).conv o.atoms = false ∧ o.nsteps < o.max_steps) := by
      rintro ⟨h1, _⟩
      rw [show (optDyn fmax alg).conv o.atoms = true from hg] at h1
      cases h1
    rw [irunLoop_done (optDyn fmax alg) (o.max_steps - o.nsteps)
      ⟨o.atoms, o.nsteps, o.max_steps⟩ hguard]
    rw [show (optDyn fmax alg).conv o.atoms = true from hg]
  have hirun : (optDyn fmax alg).irun ⟨o.atoms, o.nsteps, o.max_steps⟩ =
      ([false, true], [Event.evalForces, Event.logged 0, Event.notified 0],
        Except.ok ⟨o.atoms, o.nsteps, o.max_steps⟩) := by
    unfold Dyn.irun
    rw [show (⟨o.atoms, o.nsteps, o.max_steps⟩ : DynS Atoms).max_steps -
        (⟨o.atoms, o.nsteps, o.max_steps⟩ : DynS Atoms).nsteps = o.max_steps - o.nsteps
      from rfl]
    rw [hdone]
    simp [h0]
  have hrun : (optDyn fmax alg).run ⟨o.atoms, o.nsteps, o.max_steps⟩ =
      Except.ok (true, ⟨o.atoms, o.nsteps, o.max_steps⟩) := by
    unfold Dyn.run
    rw [show ((optDyn fmax alg).irun ⟨o.atoms, o.nsteps, o.max_steps⟩).2.2 =
        Except.ok (⟨o.atoms, o.nsteps, o.max_steps⟩ : DynS Atoms) from by rw [hirun]]
    rw [show ((optDyn fmax alg).irun ⟨o.atoms, o.nsteps, o.max_steps⟩).1 = [false, true]
      from by rw [hirun]]
    rfl
  constructor
  · show (match (optDyn fmax alg).run ⟨o.atoms, o.nsteps, o.max_steps⟩ with
      | Except.error e => Except.error e
      | Except.ok p =>
        Except.ok (p.1, { o.setRun fmax none with atoms := p.2.sys, nsteps := p.2.nsteps })) =
      Except.ok (true, o.setRun fmax none)
    rw [hrun]
    rfl
  · show (((optDyn fmax alg).irun ⟨o.atoms, o.nsteps, o.max_steps⟩).1,
      ((optDyn fmax alg).irun ⟨o.atoms, o.nsteps, o.max_steps⟩).2.1,
      match ((optDyn fmax alg).irun ⟨o.atoms, o.nsteps, o.max_steps⟩).2.2 with
      | Except.error e => Except.error e
      | Except.ok s' =>
        Except.ok { o.setRun fmax none with atoms := s'.sys, nsteps := s'.nsteps }) =
      ([false, true], [Event.evalForces, Event.logged 0, Event.notified 0],
        Except.ok (o.setRun fmax none))
    rw [hirun]
    rfl

/-- A concrete optimizer used by the C3 witness: two atoms with identically
zero forces and no curvature accessor. -/
def oC3 : Opt :=
  { name := "BFGS", atoms := ⟨[[0, 0, 0], [0, 0, 0]], none, some 3, 2⟩,
    fmax := 0, force_consistent := false, nsteps := 0,
    max_steps := 100000000, restart := none, logfile := true,
    observers := [] }

/-- Witness for C3 at `oC3` with threshold `1/20`. -/
theorem optimizer_run_fixed_point_witness :
    oC3.runO (some id) (1/20) none = Except.ok (true, oC3.setRun (1/20) none) ∧
    oC3.irunO (some id) (1/20) none =
      ([false, true], [Event.evalForces, Event.logged 0, Event.notified 0],
        Except.ok (oC3.setRun (1/20) none)) :=
  optimizer_run_fixed_point oC3 (some id) (1/20) (by norm_num) (by decide)
    (by decide) rfl rfl

/-- C7: a `Dynamics` whose concrete subclass does not supply `step()` is still
constructed without error (the constructor `freshRun` never inspects the step
algorithm and yields the initialized run state), and the failure
`RuntimeError("step not implemented.")` surfaces at the first `step()` call,
i.e. at the first iteration of `irun()`/`run()` that reaches the stepping
phase: the run errors after the single pre-step yield. -/
theorem dynamics_step_missing {σ : Type} (d : Dyn σ) (s : DynS σ)
    (hstep : d.stepFn = none) (hconv : d.conv s.sys = false)
    (hlt : s.nsteps < s.max_steps) :
    (∀ x : σ, d.stepE x = Except.error DynErr.stepNotImplemented) ∧
    d.run s = Except.error DynErr.stepNotImplemented ∧
    (d.irun s).1 = [false] ∧
    (d.irun s).2.2 = Except.error DynErr.stepNotImplemented ∧
    freshRun s.sys = ⟨s.sys, 0, 100000000⟩ := by
  have hstepE : ∀ x : σ, d.stepE x = Except.error DynErr.stepNotImplemented := by
    intro x
    unfold Dyn.stepE
    rw [hstep]
  obtain ⟨k, hk⟩ : ∃ k, s.max_steps - s.nsteps = k + 1 :=
    ⟨s.max_steps - s.nsteps - 1, by omega⟩
  have hloop : irunLoop d (s.max_steps - s.nsteps) s =
      ([], [], Except.error DynErr.stepNotImplemented) := by
    rw [hk]
    simp [irunLoop, hconv, hlt, hstepE]
  refine ⟨hstepE, ?_, ?_, ?_, rfl⟩
  · unfold Dyn.run
    rw [show (d.irun s).2.2 = Except.error DynErr.stepNotImplemented from by
      show (irunLoop d (s.max_steps - s.nsteps) s).2.2 = _
      rw [hloop]]
  · show false :: (irunLoop d (s.max_steps - s.nsteps) s).1 = [false]
    rw [hloop]
  · show (irunLoop d (s.max_steps - s.nsteps) s).2.2 = _
    rw [hloop]

/-- Witness for C7: a never-converged dynamics over `ℕ` with no step
algorithm, at the fresh run state with budget `5`. -/
theorem dynamics_step_missing_witness :
    (∀ x : ℕ, (⟨fun _ => false, none⟩ : Dyn ℕ).stepE x =
        Except.error DynErr.stepNotImplemented) ∧
    (⟨fun _ => false, none⟩ : Dyn ℕ).run ⟨0, 0, 5⟩ =
      Except.error DynErr.stepNotImplemented ∧
    ((⟨fun _ => false, none⟩ : Dyn ℕ).irun ⟨0, 0, 5⟩).1 = [false] ∧
    ((⟨fun _ => false, none⟩ : Dyn ℕ).irun ⟨0, 0, 5⟩).2.2 =
      Except.error DynErr.stepNotImplemented ∧
    freshRun (0 : ℕ) = ⟨0, 0, 100000000⟩ :=
  dynamics_step_missing (⟨fun _ => false, none⟩ : Dyn ℕ) ⟨0, 0, 5⟩ rfl rfl
    (by decide)

/-! ## Observers

Observer entries are modelled as `(callable identity, interval)` pairs; the
positional and keyword arguments stored alongside are opaque to the trigger
rule and are dropped.  `attach` and `insert_observer` also replace a
non-callable argument by its `write` method; that substitution changes the
callable, not the entry position or interval, so it is absorbed into the
callable identity. -/

/-- The trigger rule of `Dynamics.call_observers` for one entry: with a
positive interval the entry fires when `self.nsteps % interval == 0`, and
otherwise when `self.nsteps == abs(interval)`. -/
def shouldCall (nsteps : ℕ) (interval : ℤ) : Bool :=
  if 0 < interval then decide ((nsteps : ℤ) % interval = 0)
  else decide ((nsteps : ℤ) = |interval|)

/-- Embeds `Dynamics.call_observers`: it walks the observer list in order and invokes
the entries whose trigger rule holds; the result lists the invoked callables
in invocation order. -/
def call_observers (observers : List (ℕ × ℤ)) (nsteps : ℕ) : List ℕ :=
  observers.filterMap fun e => if shouldCall nsteps e.2 then some e.1 else none

/-- Embeds `Dynamics.attach`: it appends the new entry to the observer list. -/
def attach (observers : List (ℕ × ℤ)) (function : ℕ) (interval : ℤ) : List (ℕ × ℤ) :=
  observers ++ [(function, interval)]

/-- Embeds `Dynamics.insert_observer`, i.e. `self.observers.insert(position, entry)`, with
Python list semantics (a position past the end appends). -/
def insert_observer (observers : List (ℕ × ℤ)) (function : ℕ) (position : ℕ)
    (interval : ℤ) : List (ℕ × ℤ) :=
  observers.take position ++ (function, interval) :: observers.drop position

/-- C4: an entry with interval `N > 0` fires exactly at the multiples of `N`
(step 0 included); an entry with `N <= 0` fires exactly when the step count
equals `|N|`; `call_observers` invokes the firing entries in list order;
`attach` appends and `insert_observer` places the entry at the given
position. -/
theorem call_observers_spec (observers : List (ℕ × ℤ)) (nsteps : ℕ) (f : ℕ)
    (N : ℤ) (position : ℕ) :
    (shouldCall nsteps N = true ↔
      ((0 < N ∧ N ∣ (nsteps : ℤ)) ∨ (N ≤ 0 ∧ (nsteps : ℤ) = |N|))) ∧
    call_observers observers nsteps =
      (observers.filter fun e => shouldCall nsteps e.2).map Prod.fst ∧
    attach observers f N = observers ++ [(f, N)] ∧
    insert_observer observers f position N =
      observers.take position ++ (f, N) :: observers.drop position := by
  refine ⟨?_, ?_, rfl, rfl⟩
  · unfold shouldCall
    by_cases hN : 0 < N
    · rw [if_pos hN, decide_eq_true_iff]
      constructor
      · intro h
        exact Or.inl ⟨hN, Int.dvd_of_emod_eq_zero h⟩
      · rintro (⟨_, h⟩ | ⟨h, _⟩)
        · exact Int.emod_eq_zero_of_dvd h
        · exact absurd hN (not_lt.mpr h)
    · rw [if_neg hN, decide_eq_true_iff]
      constructor
      · intro h
        exact Or.inr ⟨not_lt.mp hN, h⟩
      · rintro (⟨h, _⟩ | ⟨_, h⟩)
        · exact absurd h hN
        · exact h
  · induction observers with
    | nil => rfl
    | cons e t ih =>
      by_cases he : shouldCall nsteps e.2 = true
      · simp [call_observers, List.filterMap_cons, List.filter_cons, he] at ih ⊢
        exact ih
      · simp [call_observers, List.filterMap_cons, List.filter_cons, he] at ih ⊢
        exact ih

/-- Witness for C4 on a three-entry observer list at step count 4. -/
theorem call_observers_spec_witness :
    (shouldCall 4 2 = true ↔
      ((0 < (2 : ℤ) ∧ (2 : ℤ) ∣ ((4 : ℕ) : ℤ)) ∨
        ((2 : ℤ) ≤ 0 ∧ ((4 : ℕ) : ℤ) = |(2 : ℤ)|))) ∧
    call_observers [(10, 2), (11, 3), (12, -4)] 4 =
      (([(10, 2), (11, 3), (12, -4)] : List (ℕ × ℤ)).filter
        fun e => shouldCall 4 e.2).map Prod.fst ∧
    attach [(10, 2), (11, 3), (12, -4)] 13 2 =
      [(10, 2), (11, 3), (12, -4)] ++ [(13, 2)] ∧
    insert_observer [(10, 2), (11, 3), (12, -4)] 13 1 2 =
      ([(10, 2), (11, 3), (12, -4)] : List (ℕ × ℤ)).take 1 ++
        (13, 2) :: ([(10, 2), (11, 3), (12, -4)] : List (ℕ × ℤ)).drop 1 :=
  call_observers_spec [(10, 2), (11, 3), (12, -4)] 4 13 2 1

/-! ## Restart persistence -/

/-- The message of the `RestartError` raised by `Optimizer.load` when the
restart file cannot be decoded; it ends with the offending path. -/
def restartErrMsg (path : String) : String :=
  "Could not decode restart file as JSON.  You may need to delete the restart file "
    ++ path

/-- Embeds `Optimizer.load`: it reads the restart file (its contents are given) and
decodes it; `read_json` is external to the core, so decoding is an abstract
partial function, `none` standing for any decode exception.  A decode failure
is wrapped in a `RestartError` naming the path. -/
def load {α : Type} (path : String) (contents : String)
    (decode : String → Option α) : Except DynErr α :=
  match decode contents with
  | some v => Except.ok v
  | none => Except.error (DynErr.restartError (restartErrMsg path))

/-- Which branch `Optimizer.__init__` took for internal algorithm state. -/
inductive InitAction where
  | freshState
  | readRestart
  deriving DecidableEq, Repr

/-- The restart branch of `Optimizer.__init__`: with no restart path, or a
path that is not a file, the fresh-state initializer runs; otherwise `read()`
runs (its outcome, typically produced through `load`, is passed in) and any
error it raises propagates out of the constructor. -/
def constructRestart (restart : Option String) (isfile : String → Bool)
    (readResult : Except DynErr Unit) : Except DynErr InitAction :=
  match restart with
  | none => Except.ok InitAction.freshState
  | some path =>
    if isfile path then
      match readResult with
      | Except.error e => Except.error e
      | Except.ok _ => Except.ok InitAction.readRestart
    else
      Except.ok InitAction.freshState

/-- C5: an existing but undecodable restart file makes `load` raise a
`RestartError` whose message contains (ends with) the restart path, and
construction propagates that error rather than silently falling back to fresh
state; with no restart path, or a missing file, the fresh-state initializer
runs instead of `read()`. -/
theorem optimizer_restart_error {α : Type} (path contents : String)
    (decode : String → Option α) (isfile : String → Bool)
    (hdec : decode contents = none) (hfile : isfile path = true) :
    load path contents decode =
      Except.error (DynErr.restartError (restartErrMsg path)) ∧
    restartErrMsg path =
      "Could not decode restart file as JSON.  You may need to delete the restart file "
        ++ path ∧
    constructRestart (some path) isfile
        (Except.error (DynErr.restartError (restartErrMsg path))) =
      Except.error (DynErr.restartError (restartErrMsg path)) ∧
    (∀ (g : String → Bool) (r : Except DynErr Unit),
      constructRestart none g r = Except.ok InitAction.freshState) ∧
    (∀ (g : String → Bool) (r : Except DynErr Unit) (q : String), g q = false →
      constructRestart (some q) g r = Except.ok InitAction.freshState) := by
  refine ⟨?_, rfl, ?_, ?_, ?_⟩
  · unfold load
    rw [hdec]
  · simp [constructRestart, hfile]
  · intro g r
    rfl
  · intro g r q hq
    simp [constructRestart, hq]

/-- Witness for C5: a decoder that rejects the payload `"garbage"` at path
`"restart.json"`, with the file present. -/
theorem optimizer_restart_error_witness :
    load "restart.json" "garbage" (fun _ => (none : Option ℚ)) =
      Except.error (DynErr.restartError (restartErrMsg "restart.json")) ∧
    restartErrMsg "restart.json" =
      "Could not decode restart file as JSON.  You may need to delete the restart file "
        ++ "restart.json" ∧
    constructRestart (some "restart.json") (fun _ => true)
        (Except.error (DynErr.restartError (restartErrMsg "restart.json"))) =
      Except.error (DynErr.restartError (restartErrMsg "restart.json")) ∧
    (∀ (g : String → Bool) (r : Except DynErr Unit),
      constructRestart none g r = Except.ok InitAction.freshState) ∧
    (∀ (g : String → Bool) (r : Except DynErr Unit) (q : String), g q = false →
      constructRestart (some q) g r = Except.ok InitAction.freshState) :=
  optimizer_restart_error "restart.json" "garbage" (fun _ => (none : Option ℚ))
    (fun _ => true) rfl rfl

/-! ## Force-consistency policy -/

/-- Embeds `Optimizer.set_force_consistent`: it probes
`atoms.get_potential_energy(force_consistent=True)`; a
`PropertyNotImplementedError` resolves the flag to `False`, success resolves
it to `True`. -/
def set_force_consistent (a : Atoms) : Bool :=
  match a.get_potential_energy true with
  | Except.error PropErr.propertyNotImplementedError => false
  | Except.ok _ => true

/-- The force-consistency resolution in `Optimizer.__init__`: the probe runs
only when the constructor argument is `None`; the pair records the resolved
flag and whether the probe ran. -/
def resolveForceConsistent (a : Atoms) (force_consistent : Option Bool) : Bool × Bool :=
  match force_consistent with
  | none => (set_force_consistent a, true)
  | some b => (b, false)

/-- The force-consistency flag held at the end of a run: read off the final
optimizer when the run terminated normally, and off the aborted optimizer
(whose fields the error left as they were) otherwise. -/
def finalFC (r : Except DynErr Opt) (aborted : Bool) : Bool :=
  match r with
  | Except.ok o => o.force_consistent
  | Except.error _ => aborted

/-- C6: `set_force_consistent` resolves the flag to `false` exactly when the
provider raises `PropertyNotImplementedError` for the force-consistent energy
request and to `true` otherwise; the probe runs exactly when the constructor
receives the tri-state flag in its auto-detect (`None`) setting; and the
resolved value survives the run unchanged — `irun` never reassigns the
`force_consistent` field, so no re-probe occurs for the remainder of the
run. -/
theorem set_force_consistent_spec (a : Atoms) (b : Bool) (o : Opt)
    (alg : Option (Atoms → Atoms)) (fmax : ℚ) (steps : Option ℕ) :
    (set_force_consistent a = false ↔ a.epFC = none) ∧
    resolveForceConsistent a none = (set_force_consistent a, true) ∧
    resolveForceConsistent a (some b) = (b, false) ∧
    finalFC (o.irunO alg fmax steps).2.2 o.force_consistent = o.force_consistent := by
  refine ⟨?_, rfl, rfl, ?_⟩
  · unfold set_force_consistent Atoms.get_potential_energy
    cases hfc : a.epFC with
    | none => simp
    | some e => simp
  · unfold Opt.irunO finalFC
    cases ((optDyn (o.setRun fmax steps).fmax alg).irun
        ⟨(o.setRun fmax steps).atoms, (o.setRun fmax steps).nsteps,
          (o.setRun fmax steps).max_steps⟩).2.2 with
    | error e => rfl
    | ok s' => rfl

/-- Witness for C6: an atoms object without a force-consistent energy, so the
probe resolves the flag to `false`; the run preserving the flag is checked on
the `oC1` optimizer. -/
theorem set_force_consistent_spec_witness :
    (set_force_consistent ⟨[[0, 0, 0]], none, none, 2⟩ = false ↔
      (⟨[[0, 0, 0]], none, none, 2⟩ : Atoms).epFC = none) ∧
    resolveForceConsistent ⟨[[0, 0, 0]], none, none, 2⟩ none =
      (set_force_consistent ⟨[[0, 0, 0]], none, none, 2⟩, true) ∧
    resolveForceConsistent ⟨[[0, 0, 0]], none, none, 2⟩ (some true) = (true, false) ∧
    finalFC (oC1.irunO none (1/20) (some 2)).2.2 oC1.force_consistent =
      oC1.force_consistent :=
  set_force_consistent_spec ⟨[[0, 0, 0]], none, none, 2⟩ true oC1 none (1/20) (some 2)

/-! ## Restart dumping -/

/-- Embeds `Optimizer.dump`: it writes the payload to the restart path only when the
calling process is the designated writer (`world.rank == 0`) and a restart
path is configured; the result is the updated restart sink (a map from path to
contents). -/
def dump (rank : ℕ) (restart : Option String) (sink : String → Option String)
    (payload : String) : String → Option String :=
  match restart with
  | some path =>
    if rank = 0 then fun q => if q = path then some payload else sink q
    else sink
  | none => sink

/-- C10-style frame lemma for C9: on a non-writer rank, or with no restart
path, `dump` leaves the restart sink (and everything else: it returns only the
sink) unchanged; on the writer with a configured path it writes the payload at
that path and nothing else. -/
theorem dump_writer_only (rank : ℕ) (restart : Option String)
    (sink : String → Option String) (payload : String) (path q : String)
    (hrank : rank ≠ 0) :
    dump rank restart sink payload = sink ∧
    dump 0 none sink payload = sink ∧
    dump 0 (some path) sink payload path = some payload ∧
    (q ≠ path → dump 0 (some path) sink payload q = sink q) := by
  refine ⟨?_, rfl, ?_, ?_⟩
  · cases restart with
    | none => rfl
    | some p => simp [dump, hrank]
  · simp [dump]
  · intro hq
    simp [dump, hq]

/-- Witness for C9: rank 1 never writes; rank 0 writes exactly at the
configured path `"hess.json"`. -/
theorem dump_writer_only_witness :
    dump 1 (some "hess.json") (fun _ => none) "payload" = (fun _ => (none : Option String)) ∧
    dump 0 none (fun _ => none) "payload" = (fun _ => (none : Option String)) ∧
    dump 0 (some "hess.json") (fun _ => none) "payload" "hess.json" = some "payload" ∧
    ("other.json" ≠ "hess.json" →
      dump 0 (some "hess.json") (fun _ => none) "payload" "other.json" = none) :=
  dump_writer_only 1 (some "hess.json") (fun _ => none) "payload" "hess.json"
    "other.json" (by decide)

/-! ## Parameter handling of `Optimizer.run`/`Optimizer.irun` -/

/-- The run-state initialization performed by `Dynamics.__init__` and
`Optimizer.__init__`: step counter `0`, budget `100000000`, empty observer
list, and the force-consistency flag resolved from the constructor argument.
The source also initializes the attribute `self.fmax = None`; the numeric
field here is only meaningful once `run`/`irun` assigns it. -/
def Opt.construct (name : String) (atoms : Atoms) (restart : Option String)
    (logfile : Bool) (force_consistent : Option Bool) : Opt :=
  { name := name
    atoms := atoms
    fmax := 0
    force_consistent := (resolveForceConsistent atoms force_consistent).1
    nsteps := 0
    max_steps := 100000000
    restart := restart
    logfile := logfile
    observers := [] }

/-- C10: `Optimizer.run`/`irun` with `steps=None` leave the max-step budget at
its previous value (the construction-time default being `100000000`), while
`fmax` is unconditionally overwritten on every call (also with an explicit
`steps`); no other run-state field is modified before delegating to
`Dynamics`. -/
theorem setRun_frame (o : Opt) (fmax : ℚ) (steps : Option ℕ) (name : String)
    (atoms : Atoms) (restart : Option String) (logfile : Bool)
    (force_consistent : Option Bool) :
    (o.setRun fmax none).max_steps = o.max_steps ∧
    (o.setRun fmax steps).fmax = fmax ∧
    (o.setRun fmax steps).name = o.name ∧
    (o.setRun fmax steps).atoms = o.atoms ∧
    (o.setRun fmax steps).force_consistent = o.force_consistent ∧
    (o.setRun fmax steps).nsteps = o.nsteps ∧
    (o.setRun fmax steps).restart = o.restart ∧
    (o.setRun fmax steps).logfile = o.logfile ∧
    (o.setRun fmax steps).observers = o.observers ∧
    (Opt.construct name atoms restart logfile force_consistent).max_steps = 100000000 :=
  ⟨rfl, rfl, rfl, rfl, rfl, rfl, rfl, rfl, rfl, rfl⟩

/-- Witness for C10 (the theorem has no hypotheses; this instantiates it at a
concrete optimizer and call). -/
theorem setRun_frame_witness :
    (oC3.setRun (1/20) none).max_steps = oC3.max_steps ∧
    (oC3.setRun (1/20) (some 7)).fmax = 1/20 ∧
    (oC3.setRun (1/20) (some 7)).name = oC3.name ∧
    (oC3.setRun (1/20) (some 7)).atoms = oC3.atoms ∧
    (oC3.setRun (1/20) (some 7)).force_consistent = oC3.force_consistent ∧
    (oC3.setRun (1/20) (some 7)).nsteps = oC3.nsteps ∧
    (oC3.setRun (1/20) (some 7)).restart = oC3.restart ∧
    (oC3.setRun (1/20) (some 7)).logfile = oC3.logfile ∧
    (oC3.setRun (1/20) (some 7)).observers = oC3.observers ∧
    (Opt.construct "BFGS" ⟨[[0, 0, 0]], none, none, 2⟩ none true none).max_steps =
      100000000 :=
  setRun_frame oC3 (1/20) (some 7) "BFGS" ⟨[[0, 0, 0]], none, none, 2⟩ none true none

/-! ## Logging

`Optimizer.log` writes text to the log sink.  The header line is rendered
exactly (its fields are fixed strings padded by `%4s`-style right
justification).  The data line interpolates floating-point values
(`%15.6f`-rendering of the energy and of `sqrt(fmax_squared)`); decimal
rendering of binary floats is not modelled, so the data line is kept as a
structured record of the values the source interpolates, with the squared
maximum force standing for the printed `sqrt` of it. -/

/-- Right-justification to width `w` with spaces, as Python `"%4s" % s`. -/
def rjust (w : ℕ) (s : String) : String :=
  String.mk (List.replicate (w - s.length) ' ') ++ s

/-- The header line `"%s  %4s %8s %15s  %12s\n" % (" " * len(name), "Step",
"Time", "Energy", "fmax")`. -/
def headerText (name : String) : String :=
  String.mk (List.replicate name.length ' ') ++ "  " ++ rjust 4 "Step" ++ " " ++
    rjust 8 "Time" ++ " " ++ rjust 15 "Energy" ++ "  " ++ rjust 12 "fmax" ++ "\n"

/-- The values interpolated into one data line
`"%s:  %3d %02d:%02d:%02d %15.6f%1s %15.6f\n"`: class name, step index, the
wall-clock `HH:MM:SS`, the energy, and the squared maximum per-atom force
(the printed `fmax` is its square root). -/
structure LogLine where
  name : String
  step : ℕ
  hh : ℕ
  mm : ℕ
  ss : ℕ
  energy : ℚ
  fmaxSq : ℚ
  deriving DecidableEq, Repr

/-- One write performed on the log sink. -/
inductive LogChunk where
  | header (text : String)
  | line (l : LogLine)
  | flush
  deriving DecidableEq, Repr

/-- Embeds `Optimizer.log(forces=None)` at wall-clock time `hh:mm:ss`: forces default
to the provider value; the energy is requested with the configured
force-consistency policy (before the sink is checked, so a policy failure
propagates); with a sink present, a call made at step counter `0` first writes
the header, then every call writes one data line and flushes.  `log` writes to
the sink only — it modifies no run-state field, so successive calls without an
intervening step observe the same state. -/
def Opt.log (o : Opt) (hh mm ss : ℕ) (forces : Option (List (List ℚ))) :
    Except PropErr (List LogChunk) :=
  match o.atoms.get_potential_energy o.force_consistent with
  | Except.error e => Except.error e
  | Except.ok e =>
    Except.ok
      (if o.logfile then
        (if o.nsteps = 0 then [LogChunk.header (headerText o.name)] else []) ++
          [LogChunk.line
            ⟨o.name, o.nsteps, hh, mm, ss, e, maxForceSq (forces.getD o.atoms.get_forces)⟩,
           LogChunk.flush]
      else [])

/-- Number of header writes among the chunks of one call. -/
def countHeaders (cs : List LogChunk) : ℕ :=
  cs.countP fun c =>
    match c with
    | LogChunk.header _ => true
    | _ => false

/-- A sequence of `log` calls on one optimizer (no steps in between; `log`
leaves the run state unchanged, so each call sees the same state). -/
def logCallSeq (o : Opt) (times : List (ℕ × ℕ × ℕ)) :
    List (Except PropErr (List LogChunk)) :=
  times.map fun t => o.log t.1 t.2.1 t.2.2 none

/-- A concrete optimizer for the C8 theorems: one atom with force row
`[1/10, 0, 0]`, extrapolated energy `2`, a log sink, step counter `0`. -/
def oC8 : Opt :=
  { name := "BFGS", atoms := ⟨[[1/10, 0, 0]], none, none, 2⟩,
    fmax := 1/20, force_consistent := false, nsteps := 0,
    max_steps := 100000000, restart := none, logfile := true,
    observers := [] }

/-- C8 counterexample: the code writes the header whenever the step counter is
`0`, not « exactly on the first call »: two successive `log()` calls on `oC8`
(step counter `0`, no step in between) each write one header, so the second —
not first — call also writes it, refuting the claim as stated. -/
theorem log_header_counterexample :
    (logCallSeq oC8 [(12, 0, 0), (12, 0, 1)]).map
        (fun r =>
          match r with
          | Except.ok cs => countHeaders cs
          | Except.error _ => 0) = [1, 1] := rfl

/-- C8 as amended: with a log sink present and the configured energy policy
succeeding, every `log` call appends exactly the header (iff the step counter
is `0`) followed by one data line — whose energy is the policy energy and
whose printed fmax is the square root of the maximum per-atom squared force —
and a flush. -/
theorem log_spec (o : Opt) (hh mm ss : ℕ) (forces : Option (List (List ℚ)))
    (e : ℚ) (hl : o.logfile = true)
    (he : o.atoms.get_potential_energy o.force_consistent = Except.ok e) :
    o.log hh mm ss forces =
      Except.ok
        ((if o.nsteps = 0 then [LogChunk.header (headerText o.name)] else []) ++
          [LogChunk.line
            ⟨o.name, o.nsteps, hh, mm, ss, e, maxForceSq (forces.getD o.atoms.get_forces)⟩,
           LogChunk.flush]) := by
  simp [Opt.log, he, hl]

/-- Witness for C8 at `oC8` at noon: header (step counter is `0`), one data
line with energy `2` and squared maximum force `1/100`, and a flush. -/
theorem log_spec_witness :
    oC8.log 12 0 0 none =
      Except.ok
        ((if oC8.nsteps = 0 then [LogChunk.header (headerText oC8.name)] else []) ++
          [LogChunk.line
            ⟨oC8.name, oC8.nsteps, 12, 0, 0, 2,
              maxForceSq ((none : Option (List (List ℚ))).getD oC8.atoms.get_forces)⟩,
           LogChunk.flush]) :=
  log_spec oC8 12 0 0 none 2 rfl rfl

end ASE
